import Mathlib

/-!
Verification development for the process-execution core of the
cross-terminal repository: a shallow embedding of the memory subsystem
(`MemoryPool`, `StackAllocator`, `MemoryManager` from the memory-pool
header) and of the shell subsystem (`ProcessIO`, `ManagedProcess`,
`ShellImpl` from `src/core/implementations/shell_impl.h`), together with
theorems settling the spec's claims about them.

Machine pointers are modelled as integer byte offsets relative to the
start of the backing storage of the object that owns them (the C++ code
only ever compares pointers against its own storage bounds and divides by
the element size, so offsets capture exactly the arithmetic performed).
OS effects (chdir/getcwd, signals, process spawning) are modelled as
explicit oracle parameters.
-/

/-! ## Memory subsystem: `MemoryPool<T, PoolSize>` -/

/-- One `MemoryPool<T, PoolSize>` instance. `used` is the `std::bitset`
(one entry per storage slot; the pool capacity `PoolSize` is
`used.length`), `next_free` the scan hint, `allocated_count` the atomic
counter, and `elem_size` is `sizeof(StorageBlock)` (the stride used by
the pointer-to-slot division in `deallocate`). -/
structure MemoryPool where
  used : List Bool
  next_free : Nat
  allocated_count : Nat
  elem_size : Nat
deriving DecidableEq, Repr

/-- First index `i` with `start ≤ i < start + fuel` whose bitmap bit is
clear, reading out-of-range bits as set (the C++ loops never read out of
range; the default only matters for stating lemmas uniformly). -/
def scanFree (used : List Bool) (start fuel : Nat) : Option Nat :=
  match fuel with
  | 0 => none
  | f + 1 =>
    if used.getD start true then scanFree used (start + 1) f else some start

/-- `MemoryPool::find_free_slot`: scan `[next_free, PoolSize)`, then wrap
around and scan `[0, next_free)`; on success store `(i + 1) % PoolSize`
back into the hint. Returns `PoolSize` (here: `none`) when exhausted. -/
def MemoryPool.find_free_slot (p : MemoryPool) : Option Nat × MemoryPool :=
  match scanFree p.used p.next_free (p.used.length - p.next_free) with
  | some i => (some i, { p with next_free := (i + 1) % p.used.length })
  | none =>
    match scanFree p.used 0 p.next_free with
    | some i => (some i, { p with next_free := (i + 1) % p.used.length })
    | none => (none, p)

/-- `MemoryPool::allocate`: on a free slot, set its bit, bump the count
and return `&storage_[slot]`, i.e. byte offset `slot * elem_size`;
`nullptr` (here `none`) when the pool is exhausted. -/
def MemoryPool.allocate (p : MemoryPool) : Option Int × MemoryPool :=
  match p.find_free_slot with
  | (none, p') => (none, p')
  | (some slot, p') =>
    (some (Int.ofNat (slot * p.elem_size)),
     { p' with used := p'.used.set slot true,
               allocated_count := p'.allocated_count + 1 })

/-- `MemoryPool::deallocate(ptr)`: reject pointers outside
`[storage_begin, storage_end)`; otherwise compute
`slot = (ptr_addr - storage_begin) / sizeof(StorageBlock)` and, if the
slot is in range and its bit set, clear the bit, decrement the count and
lower the `next_free` hint. `ptr` is the byte offset of the pointer from
`storage_begin` (negative = an address below the storage). -/
def MemoryPool.deallocate (p : MemoryPool) (ptr : Int) : MemoryPool :=
  if ptr < 0 ∨ (p.used.length * p.elem_size : Int) ≤ ptr then p
  else
    let slot := ptr.toNat / p.elem_size
    if slot < p.used.length ∧ p.used.getD slot false then
      { p with used := p.used.set slot false,
               allocated_count := p.allocated_count - 1,
               next_free := if slot < p.next_free then slot else p.next_free }
    else p

/-- `MemoryPool::allocated()`. -/
def MemoryPool.allocated (p : MemoryPool) : Nat := p.allocated_count

/-- A client-visible pool operation (the statistics getters are pure). -/
inductive PoolOp where
  | alloc : PoolOp
  | dealloc (ptr : Int) : PoolOp
deriving DecidableEq, Repr

/-- Effect of one pool operation on the pool state. -/
def poolStep (p : MemoryPool) : PoolOp → MemoryPool
  | .alloc => p.allocate.2
  | .dealloc ptr => p.deallocate ptr

/-- Run a sequence of pool operations. -/
def poolRun (p : MemoryPool) : List PoolOp → MemoryPool
  | [] => p
  | op :: ops => poolRun (poolStep p op) ops

/-- Does the operation free slot `i` of a pool with the given element
size and capacity?  (A `deallocate` clears bit `i` exactly when its
pointer passes the bounds check and divides down to slot `i`.) -/
def PoolOp.clearsSlot (es len i : Nat) : PoolOp → Bool
  | .alloc => false
  | .dealloc ptr =>
    decide (0 ≤ ptr) && decide (ptr < (len * es : Int)) && (ptr.toNat / es == i)

/-! ## Memory subsystem: `StackAllocator<StackSize>` -/

/-- `align_up<alignof(std::max_align_t)>` with the 16-byte
`max_align_t` alignment of the targeted 64-bit ABIs; the C++ bit trick
`(size + A - 1) & ~(A - 1)` equals round-up-to-multiple for a power of
two `A`. -/
def align_up16 (size : Nat) : Nat := (size + 15) / 16 * 16

/-- One `StackAllocator<StackSize>`: fixed backing buffer of
`stack_size` bytes and the bump offset `top_`. -/
structure StackAllocator where
  stack_size : Nat
  top : Nat
deriving DecidableEq, Repr

/-- `StackAllocator::allocate(size, alignment)` (the `alignment`
parameter is unused by the source body, which always aligns to
`max_align_t`): round the size and the current top up, bump the top, and
return the old aligned top as the pointer; null on overflow.  The CAS
retry loop is contention handling only; its single-thread effect is this
update. -/
def StackAllocator.allocate (s : StackAllocator) (size : Nat) :
    Option Int × StackAllocator :=
  let size' := align_up16 size
  let aligned_top := align_up16 s.top
  let new_top := aligned_top + size'
  if s.stack_size < new_top then (none, s)
  else (some (Int.ofNat aligned_top), { s with top := new_top })

/-- `StackAllocator::deallocate_to(ptr)`: if the pointer lies inside the
backing buffer, rewind `top_` to its offset (partial rewind); otherwise do
nothing.  (`if (!ptr) return` is subsumed by the bounds check: the buffer
is never at address zero.) -/
def StackAllocator.deallocate_to (s : StackAllocator) (ptr : Int) : StackAllocator :=
  if 0 ≤ ptr ∧ ptr < (s.stack_size : Int) then { s with top := ptr.toNat }
  else s

/-- `StackAllocator::reset()`. -/
def StackAllocator.reset (s : StackAllocator) : StackAllocator := { s with top := 0 }

/-- `StackAllocator::used()`. -/
def StackAllocator.used (s : StackAllocator) : Nat := s.top

/-- A state-changing public operation on the stack allocator (`used()`
and `available()` are pure getters). -/
inductive StackOp where
  | alloc (size : Nat) : StackOp
  | dealloc_to (ptr : Int) : StackOp
  | reset : StackOp
deriving DecidableEq, Repr

/-- Effect of one stack-allocator operation. -/
def stackStep (s : StackAllocator) : StackOp → StackAllocator
  | .alloc size => (s.allocate size).2
  | .dealloc_to ptr => s.deallocate_to ptr
  | .reset => s.reset

/-- Run a sequence of stack-allocator operations. -/
def stackRun (s : StackAllocator) : List StackOp → StackAllocator
  | [] => s
  | op :: ops => stackRun (stackStep s op) ops

/-- Is the operation an `allocate`? -/
def StackOp.isAlloc : StackOp → Bool
  | .alloc _ => true
  | _ => false

/-! ## Memory subsystem: `MemoryManager` -/

/-- `2^64`: `size_t` arithmetic wraps modulo this (64-bit targets). -/
def size_t_mod : Nat := 18446744073709551616

/-- A pointer at the `MemoryManager` level.  The three pools and the
system heap occupy pairwise disjoint address ranges, so a pointer is its
region plus the byte offset inside that region's storage. -/
inductive MMPtr where
  | small (off : Int) : MMPtr
  | medium (off : Int) : MMPtr
  | large (off : Int) : MMPtr
  | sys (id : Nat) : MMPtr
deriving DecidableEq, Repr

/-- The three size-class pools. -/
inductive MMRegion where
  | small : MMRegion
  | medium : MMRegion
  | large : MMRegion
deriving DecidableEq, Repr

/-- Byte offset of a pointer relative to a given pool's storage.  A
pointer from any other region lies outside that pool's
`[storage_begin, storage_end)` range (the ranges are disjoint), which the
pool's bounds check rejects; `-1` is a canonical out-of-range offset. -/
def MMPtr.offsetIn : MMRegion → MMPtr → Int
  | .small, .small off => off
  | .medium, .medium off => off
  | .large, .large off => off
  | _, _ => -1

/-- `MemoryManager` state: the three size-classed pools
(`MemoryPool<char, 4096 / 2048 / 1024>`, element size 1), the
`StackAllocator<16384>`, and the statistics counters (wrap mod `2^64`). -/
structure MemoryManager where
  small_object_pool : MemoryPool
  medium_object_pool : MemoryPool
  large_object_pool : MemoryPool
  stack_allocator : StackAllocator
  total_allocated : Nat
  total_deallocated : Nat
  peak_usage : Nat
  allocation_histogram : List (Nat × Nat)
deriving DecidableEq, Repr

/-- Bump the histogram count for a requested size
(`allocation_histogram_[size]++`). -/
def histIncr (h : List (Nat × Nat)) (size : Nat) : List (Nat × Nat) :=
  if (h.find? (fun kv => kv.1 == size)).isSome then
    h.map (fun kv => if kv.1 == size then (kv.1, kv.2 + 1) else kv)
  else h ++ [(size, 1)]

/-- `MemoryManager::update_statistics(size, allocating)`: on allocation,
`total_allocated_.fetch_add(size)` (returning the pre-add value, which the
CAS loop folds into `peak_usage_`) and a histogram bump; otherwise
`total_deallocated_.fetch_add(size)`. -/
def MemoryManager.update_statistics (m : MemoryManager) (size : Nat)
    (allocating : Bool) : MemoryManager :=
  if allocating then
    { m with total_allocated := (m.total_allocated + size) % size_t_mod,
             peak_usage :=
               if m.peak_usage < m.total_allocated then m.total_allocated
               else m.peak_usage,
             allocation_histogram := histIncr m.allocation_histogram size }
  else
    { m with total_deallocated := (m.total_deallocated + size) % size_t_mod }

/-- `MemoryManager::allocate(size, alignment)`: route by size class
(`≤64` small, `≤512` medium, `≤4096` large, otherwise
`std::aligned_alloc` — modelled by the `sysAlloc` oracle, `none` =
system allocation failure); statistics are updated only when a pointer
was obtained. -/
def MemoryManager.allocate (m : MemoryManager) (size : Nat)
    (sysAlloc : Option Nat) : Option MMPtr × MemoryManager :=
  let (ptr, m') :=
    if size ≤ 64 then
      match m.small_object_pool.allocate with
      | (some off, p') => (some (MMPtr.small off), { m with small_object_pool := p' })
      | (none, p') => (none, { m with small_object_pool := p' })
    else if size ≤ 512 then
      match m.medium_object_pool.allocate with
      | (some off, p') => (some (MMPtr.medium off), { m with medium_object_pool := p' })
      | (none, p') => (none, { m with medium_object_pool := p' })
    else if size ≤ 4096 then
      match m.large_object_pool.allocate with
      | (some off, p') => (some (MMPtr.large off), { m with large_object_pool := p' })
      | (none, p') => (none, { m with large_object_pool := p' })
    else
      match sysAlloc with
      | some id => (some (MMPtr.sys id), m)
      | none => (none, m)
  match ptr with
  | some q => (some q, m'.update_statistics size true)
  | none => (none, m')

/-- `MemoryManager::deallocate(ptr, size)`: null pointers return
immediately; otherwise the size class selects a pool whose `deallocate`
is tried (or `std::free` for `size > 4096`), `deallocated` is set in
every branch, and the statistics are updated unconditionally. -/
def MemoryManager.deallocate (m : MemoryManager) (ptr : Option MMPtr)
    (size : Nat) : MemoryManager :=
  match ptr with
  | none => m
  | some q =>
    let m' :=
      if size ≤ 64 then
        { m with small_object_pool :=
            m.small_object_pool.deallocate (q.offsetIn MMRegion.small) }
      else if size ≤ 512 then
        { m with medium_object_pool :=
            m.medium_object_pool.deallocate (q.offsetIn MMRegion.medium) }
      else if size ≤ 4096 then
        { m with large_object_pool :=
            m.large_object_pool.deallocate (q.offsetIn MMRegion.large) }
      else m
    m'.update_statistics size false

/-- `MemoryManager::MemoryStats` as returned by `get_stats()` (the
floating-point pool-utilization ratios are omitted: no claim concerns
them). -/
structure MemoryStats where
  total_allocated : Nat
  total_deallocated : Nat
  current_usage : Nat
  peak_usage : Nat
  stack_usage : Nat
deriving DecidableEq, Repr

/-- `MemoryManager::get_stats()`: `current_usage` is the `size_t`
difference `total_allocated_ - total_deallocated_`, i.e. subtraction
modulo `2^64`. -/
def MemoryManager.get_stats (m : MemoryManager) : MemoryStats :=
  { total_allocated := m.total_allocated,
    total_deallocated := m.total_deallocated,
    current_usage :=
      (m.total_allocated + (size_t_mod - m.total_deallocated % size_t_mod)) %
        size_t_mod,
    peak_usage := m.peak_usage,
    stack_usage := m.stack_allocator.used }

/-- The size-class pool `MemoryManager::allocate` routes a request of the
given size (≤ 4096) to. -/
def sizeClassPool (m : MemoryManager) (size : Nat) : MemoryPool :=
  if size ≤ 64 then m.small_object_pool
  else if size ≤ 512 then m.medium_object_pool
  else m.large_object_pool

/-- A `MemoryManager` in its start-up shape except that every slot of the
small-object pool (`MemoryPool<char, 4096>`) is in use. -/
def fullSmallPoolMM : MemoryManager :=
  { small_object_pool := ⟨List.replicate 4096 true, 0, 4096, 1⟩,
    medium_object_pool := ⟨List.replicate 2048 false, 0, 0, 1⟩,
    large_object_pool := ⟨List.replicate 1024 false, 0, 0, 1⟩,
    stack_allocator := ⟨16384, 0⟩,
    total_allocated := 0,
    total_deallocated := 0,
    peak_usage := 0,
    allocation_histogram := [] }

/-! ## Shell subsystem: data model (`shell_impl.h`, `terminal.h`) -/

/-- `ProcessState` from the core interface header. -/
inductive ProcessState where
  | NotStarted : ProcessState
  | Running : ProcessState
  | Completed : ProcessState
  | Failed : ProcessState
  | Terminated : ProcessState
  | Suspended : ProcessState
deriving DecidableEq, Repr

/-- `ProcessInfo` with the interface header's default constructor values.
`start_time`/`end_time` are wall-clock milliseconds; the claims never
constrain them, and the model records 0 where the source samples the
clock. -/
structure ProcessInfo where
  pid : Int := 0
  parent_pid : Int := 0
  state : ProcessState := ProcessState.NotStarted
  exit_code : Int := 0
  start_time : Nat := 0
  end_time : Nat := 0
  command : String := ""
  arguments : List String := []
  working_dir : String := ""
deriving DecidableEq, Repr

/-- `ProcessIO`: the pair of growable output buffers.  Capacity doubling
is a reallocation detail that never drops bytes, so each buffer is its
byte content (bytes as `Char`s; all claimed inputs are ASCII). -/
structure ProcessIOBuffers where
  stdout_buffer : List Char
  stderr_buffer : List Char
deriving DecidableEq, Repr

/-- `ProcessIO::getAllOutput()`: stdout then stderr, buffers untouched
(a `const` member). -/
def ProcessIOBuffers.getAllOutput (b : ProcessIOBuffers) : List Char :=
  b.stdout_buffer ++ b.stderr_buffer

/-- `ProcessIO::clear()`. -/
def ProcessIOBuffers.clear (_ : ProcessIOBuffers) : ProcessIOBuffers := ⟨[], []⟩

/-- `ManagedProcess`: its `ProcessInfo`, its `ProcessIO`, the `running_`
flag and the OS pid held in `handle_`. -/
structure ManagedProcess where
  info : ProcessInfo
  iobuf : ProcessIOBuffers
  running : Bool
  os_pid : Int
deriving DecidableEq, Repr

/-- `ManagedProcess::readOutput(max_bytes)`: return `getAllOutput()`
whole when `max_bytes == 0`, else truncated via `substr(0, max_bytes)`;
the process (and its buffers) is returned unchanged — nothing in the
source mutates it. -/
def ManagedProcess.readOutput (mp : ManagedProcess) (max_bytes : Nat) :
    List Char × ManagedProcess :=
  if max_bytes = 0 then (mp.iobuf.getAllOutput, mp)
  else
    let output := mp.iobuf.getAllOutput
    if output.length ≤ max_bytes then (output, mp)
    else (output.take max_bytes, mp)

/-- `ShellImpl::ParsedCommand` with its member defaults. -/
structure ParsedCommand where
  executable : String := ""
  arguments : List String := []
  input_redirections : List String := []
  output_redirections : List String := []
  append_output : Bool := false
  run_in_background : Bool := false
deriving DecidableEq, Repr

/-- `ParsedCommand::isValid()`. -/
def ParsedCommand.isValid (c : ParsedCommand) : Bool := !c.executable.isEmpty

/-- `ExecutionOptions` from the core interface header. -/
structure ExecutionOptions where
  working_directory : String := ""
  environment : List (String × String) := []
  capture_output : Bool := true
  merge_stderr : Bool := false
  timeout_ms : Nat := 0
  run_in_background : Bool := false
  priority : Int := 0
deriving DecidableEq, Repr

/-- The operating-system effects the shell calls into, as oracles:
`fs path` models `chdir(path)` followed by `getcwd` (`none` = either
call failed, in which case `setCurrentDirectory` leaves the shell state
alone); `sig pid force` models the `kill(pid, SIGTERM/SIGKILL)` success;
`run parsed options` models spawning a process synchronously and
busy-polling it to completion, yielding its final `ProcessInfo`;
`spawn parsed options` models `createProcess` + `ManagedProcess::start`
for the async paths (`none` = `start()` returned false). -/
structure OSOracle where
  fs : String → Option String
  sig : Int → Bool → Bool
  run : ParsedCommand → ExecutionOptions → ProcessInfo
  spawn : ParsedCommand → ExecutionOptions → Option ManagedProcess

/-- The `ShellImpl` state owned across calls: the process table
`active_processes_` (pid → process, association list), the `next_pid_`
counter, `shell_path_`, `current_directory_` and the `Environment`
key/value store. -/
structure ShellState where
  active_processes : List (Int × ManagedProcess)
  next_pid : Int
  shell_path : String
  current_directory : String
  environment : List (String × String)
deriving DecidableEq, Repr

/-- `active_processes_.find(pid)`. -/
def lookupProcess (l : List (Int × ManagedProcess)) (pid : Int) :
    Option ManagedProcess :=
  (l.find? (fun e => e.1 == pid)).map (fun e => e.2)

/-- `active_processes_[pid] = process` (insert or overwrite). -/
def tableInsert (l : List (Int × ManagedProcess)) (pid : Int)
    (proc : ManagedProcess) : List (Int × ManagedProcess) :=
  if (l.find? (fun e => e.1 == pid)).isSome then
    l.map (fun e => if e.1 == pid then (e.1, proc) else e)
  else l ++ [(pid, proc)]

/-- Write back the mutated `ManagedProcess` for `pid` (C++ mutates the
table entry in place through the `unique_ptr`). -/
def tableUpdate (l : List (Int × ManagedProcess)) (pid : Int)
    (proc : ManagedProcess) : List (Int × ManagedProcess) :=
  l.map (fun e => if e.1 == pid then (e.1, proc) else e)

/-- `Environment::get` (empty string when unset). -/
def envGet (env : List (String × String)) (name : String) : String :=
  match env.find? (fun kv => kv.1 == name) with
  | some kv => kv.2
  | none => ""

/-- `Environment::set` (upsert). -/
def envSet (env : List (String × String)) (name value : String) :
    List (String × String) :=
  if (env.find? (fun kv => kv.1 == name)).isSome then
    env.map (fun kv => if kv.1 == name then (kv.1, value) else kv)
  else env ++ [(name, value)]

/-- Numeric value of a digit run. -/
def digitsVal (ds : List Char) : Nat :=
  ds.foldl (fun a c => a * 10 + (c.toNat - 48)) 0

/-- `std::stoi`: skip leading whitespace, optional sign, then at least
one decimal digit (`none` models the `std::invalid_argument` throw that
the built-ins catch; out-of-range overflow is not modelled — no claim
involves it). -/
def stoi (s : String) : Option Int :=
  let cs := s.data.dropWhile
    (fun c => c == ' ' || c == '\t' || c == '\n' || c == '\r' ||
              c == '\x0b' || c == '\x0c')
  match cs with
  | '-' :: rest =>
    let ds := rest.takeWhile Char.isDigit
    if ds.isEmpty then none else some (-(digitsVal ds : Int))
  | '+' :: rest =>
    let ds := rest.takeWhile Char.isDigit
    if ds.isEmpty then none else some ((digitsVal ds : Int))
  | _ =>
    let ds := cs.takeWhile Char.isDigit
    if ds.isEmpty then none else some ((digitsVal ds : Int))

/-- Split `arg` at its first `=` (for the `export` built-in);
`none` when no `=` occurs. -/
def splitAtEq (s : String) : Option (String × String) :=
  let pre := s.data.takeWhile (fun c => c != '=')
  if pre.length = s.data.length then none
  else some (String.mk pre, String.mk (s.data.drop (pre.length + 1)))

/-- Whitespace tokenization of a command line. -/
def tokenizeAux (cs : List Char) (cur : List Char) (acc : List String) :
    List String :=
  match cs with
  | [] => if cur.isEmpty then acc.reverse else (String.mk cur.reverse :: acc).reverse
  | c :: rest =>
    if c == ' ' || c == '\t' then
      if cur.isEmpty then tokenizeAux rest [] acc
      else tokenizeAux rest [] (String.mk cur.reverse :: acc)
    else tokenizeAux rest (c :: cur) acc

/-- Split a string into whitespace-separated tokens. -/
def tokenizeWs (s : String) : List String := tokenizeAux s.data [] []

/-- Modelled from the spec: the implementation of `CommandParser::parse`
(its `tokenize`, quoting and variable-expansion bodies) is not among the
repository sources — only the class declaration in `shell_impl.h` and
its call sites are.  Spec §4.6: `parse(command, env)` "tokenizes on
whitespace while respecting a quoting rule (quoted substrings are single
tokens with quotes stripped) and performs environment-variable
expansion", producing a `ParsedCommand` whose executable is the first
token, and "returns an invalid (`executable` empty) result for blank or
whitespace-only input".  The commands the claims exercise contain no
quotes and no `$`-variables, so plain whitespace tokenization models
them faithfully. -/
def parseCommandSpec (command : String) : ParsedCommand :=
  match tokenizeWs command with
  | [] => {}
  | exe :: args => { executable := exe, arguments := args }

/-- `ShellImpl::isBuiltinCommand`. -/
def isBuiltinCommand (command : String) : Bool :=
  ["cd", "pwd", "echo", "exit", "export", "jobs", "kill", "help"].contains command

/-- `ShellImpl::getCurrentDirectory()`. -/
def ShellImpl.getCurrentDirectory (st : ShellState) : String :=
  st.current_directory

/-- `ShellImpl::setCurrentDirectory(path)`: `chdir` + `getcwd` via the
`fs` oracle; on success store the fresh `getcwd` result, otherwise leave
`current_directory_` untouched and return false. -/
def ShellImpl.setCurrentDirectory (os : OSOracle) (st : ShellState)
    (path : String) : Bool × ShellState :=
  match os.fs path with
  | some cwd => (true, { st with current_directory := cwd })
  | none => (false, st)

/-- `ShellImpl::getProcessInfo(pid)`: table hit returns the process's
info; unknown pids get a default `ProcessInfo` carrying the pid,
state `NotStarted`. -/
def ShellImpl.getProcessInfo (st : ShellState) (pid : Int) : ProcessInfo :=
  match lookupProcess st.active_processes pid with
  | some proc => proc.info
  | none => { pid := pid, state := ProcessState.NotStarted }

/-- `ShellImpl::getAllProcesses()`. -/
def ShellImpl.getAllProcesses (st : ShellState) : List ProcessInfo :=
  st.active_processes.map (fun e => e.2.info)

/-- `ShellImpl::readOutput(pid, max_bytes)`: delegate on a table hit,
empty string otherwise. -/
def ShellImpl.readOutput (st : ShellState) (pid : Int) (max_bytes : Nat) :
    List Char :=
  match lookupProcess st.active_processes pid with
  | some proc => (proc.readOutput max_bytes).1
  | none => []

/-- `ManagedProcess::terminate(force)`: trivially succeed when not
running; otherwise send the signal (`sig` oracle; requires a positive OS
pid) and, on success, clear `running_`, set state `Terminated` and fire
completion. -/
def ManagedProcess.terminate (os : OSOracle) (mp : ManagedProcess)
    (force : Bool) : Bool × ManagedProcess :=
  if !mp.running then (true, mp)
  else
    let success := decide (0 < mp.os_pid) && os.sig mp.os_pid force
    if success then
      (true, { mp with running := false,
                       info := { mp.info with
                                   state := ProcessState.Terminated,
                                   end_time := 0 } })
    else (false, mp)

/-- `ShellImpl::terminateProcess(pid, force)`: look up and delegate;
false for unknown pids. -/
def ShellImpl.terminateProcess (os : OSOracle) (st : ShellState)
    (pid : Int) (force : Bool) : Bool × ShellState :=
  match lookupProcess st.active_processes pid with
  | some proc =>
    let (ok, proc') := proc.terminate os force
    (ok, { st with active_processes := tableUpdate st.active_processes pid proc' })
  | none => (false, st)

/-! ### Built-in commands -/

/-- `ShellImpl::executeBuiltinCd`: empty args target `$HOME` (or `/`),
else the first argument; success/failure of `setCurrentDirectory`
decides Completed/0 vs Failed/1. -/
def ShellImpl.executeBuiltinCd (os : OSOracle) (st : ShellState)
    (args : List String) : ProcessInfo × ShellState :=
  let target_dir :=
    match args with
    | [] =>
      let home := envGet st.environment "HOME"
      if home.isEmpty then "/" else home
    | a :: _ => a
  match ShellImpl.setCurrentDirectory os st target_dir with
  | (true, st') =>
    ({ command := "cd", arguments := args,
       state := ProcessState.Completed, exit_code := 0 }, st')
  | (false, st') =>
    ({ command := "cd", arguments := args,
       state := ProcessState.Failed, exit_code := 1 }, st')

/-- `ShellImpl::executeBuiltinPwd`. -/
def ShellImpl.executeBuiltinPwd (st : ShellState) (args : List String) :
    ProcessInfo × ShellState :=
  ({ command := "pwd", arguments := args,
     state := ProcessState.Completed, exit_code := 0 }, st)

/-- `ShellImpl::executeBuiltinEcho`. -/
def ShellImpl.executeBuiltinEcho (st : ShellState) (args : List String) :
    ProcessInfo × ShellState :=
  ({ command := "echo", arguments := args,
     state := ProcessState.Completed, exit_code := 0 }, st)

/-- `ShellImpl::executeBuiltinExit`: exit code parsed from the first
argument when present (1 on a parse failure), state Completed. -/
def ShellImpl.executeBuiltinExit (st : ShellState) (args : List String) :
    ProcessInfo × ShellState :=
  let code : Int :=
    match args with
    | [] => 0
    | a :: _ =>
      match stoi a with
      | some v => v
      | none => 1
  ({ command := "exit", arguments := args,
     state := ProcessState.Completed, exit_code := code }, st)

/-- `ShellImpl::executeBuiltinJobs`. -/
def ShellImpl.executeBuiltinJobs (st : ShellState) (args : List String) :
    ProcessInfo × ShellState :=
  ({ command := "jobs", arguments := args,
     state := ProcessState.Completed, exit_code := 0 }, st)

/-- `ShellImpl::executeBuiltinKill`: parse the pid (exit 1 on missing or
unparsable argument) and delegate to `terminateProcess(pid, false)`. -/
def ShellImpl.executeBuiltinKill (os : OSOracle) (st : ShellState)
    (args : List String) : ProcessInfo × ShellState :=
  match args with
  | [] =>
    ({ command := "kill", arguments := args,
       state := ProcessState.Failed, exit_code := 1 }, st)
  | a :: _ =>
    match stoi a with
    | none =>
      ({ command := "kill", arguments := args,
         state := ProcessState.Failed, exit_code := 1 }, st)
    | some pid =>
      match ShellImpl.terminateProcess os st pid false with
      | (true, st') =>
        ({ command := "kill", arguments := args,
           state := ProcessState.Completed, exit_code := 0 }, st')
      | (false, st') =>
        ({ command := "kill", arguments := args,
           state := ProcessState.Failed, exit_code := 1 }, st')

/-- `ShellImpl::executeBuiltinExport`: each `NAME=value` argument
updates the environment; others are ignored; always Completed/0. -/
def ShellImpl.executeBuiltinExport (st : ShellState) (args : List String) :
    ProcessInfo × ShellState :=
  let env' := args.foldl
    (fun e arg =>
      match splitAtEq arg with
      | some nv => envSet e nv.1 nv.2
      | none => e)
    st.environment
  ({ command := "export", arguments := args,
     state := ProcessState.Completed, exit_code := 0 },
   { st with environment := env' })

/-- `ShellImpl::executeBuiltin`: string dispatch; the trailing case
(reached by `help`, which `isBuiltinCommand` accepts but the dispatcher
does not handle) yields Failed/1.  `options` is accepted and unused,
as in the source. -/
def ShellImpl.executeBuiltin (os : OSOracle) (st : ShellState)
    (command : String) (args : List String) (_ : ExecutionOptions) :
    ProcessInfo × ShellState :=
  if command == "cd" then ShellImpl.executeBuiltinCd os st args
  else if command == "pwd" then ShellImpl.executeBuiltinPwd st args
  else if command == "echo" then ShellImpl.executeBuiltinEcho st args
  else if command == "exit" then ShellImpl.executeBuiltinExit st args
  else if command == "jobs" then ShellImpl.executeBuiltinJobs st args
  else if command == "kill" then ShellImpl.executeBuiltinKill os st args
  else if command == "export" then ShellImpl.executeBuiltinExport st args
  else
    ({ state := ProcessState.Failed, exit_code := 1 }, st)

/-! ### Execution entry points -/

/-- `ShellImpl::executeSync`: invalid parse → Failed with exit -1; built-ins
dispatch synchronously; otherwise create a process (`createProcess`
cannot fail — it is a bare `make_unique`, so the null check is dead
code), consume a pid, start it and busy-poll to completion (the `run`
oracle), never touching the process table. -/
def ShellImpl.executeSync (parse : String → ParsedCommand) (os : OSOracle)
    (st : ShellState) (command : String) (options : ExecutionOptions) :
    ProcessInfo × ShellState :=
  let parsed := parse command
  if !parsed.isValid then
    ({ state := ProcessState.Failed, exit_code := -1 }, st)
  else if isBuiltinCommand parsed.executable then
    ShellImpl.executeBuiltin os st parsed.executable parsed.arguments options
  else
    let st' := { st with next_pid := st.next_pid + 1 }
    (os.run parsed options, st')

/-- `ShellImpl::executeAsync`: invalid parse → -1 before any state
change; otherwise the pid counter is consumed, callbacks registered
(callback plumbing has no further shell-state effect and is carried
inside the spawned process), and on successful `start` the process is
stored in the table and the pid returned; a failed `start` returns -1
with the pid already consumed. -/
def ShellImpl.executeAsync (parse : String → ParsedCommand) (os : OSOracle)
    (st : ShellState) (command : String) (options : ExecutionOptions) :
    Int × ShellState :=
  let parsed := parse command
  if !parsed.isValid then (-1, st)
  else
    let pid := st.next_pid
    let st' := { st with next_pid := st.next_pid + 1 }
    match os.spawn parsed options with
    | none => (-1, st')
    | some proc =>
      (pid, { st' with active_processes := tableInsert st'.active_processes pid proc })

/-- `ShellImpl::executeInteractive`: as `executeAsync` without
callbacks. -/
def ShellImpl.executeInteractive (parse : String → ParsedCommand)
    (os : OSOracle) (st : ShellState) (command : String)
    (options : ExecutionOptions) : Int × ShellState :=
  let parsed := parse command
  if !parsed.isValid then (-1, st)
  else
    let pid := st.next_pid
    let st' := { st with next_pid := st.next_pid + 1 }
    match os.spawn parsed options with
    | none => (-1, st')
    | some proc =>
      (pid, { st' with active_processes := tableInsert st'.active_processes pid proc })

/-- A started process with buffered output, for exercising
`readOutput`. -/
def sampleProc : ManagedProcess :=
  { info := { pid := 42, state := ProcessState.Running, command := "cat" },
    iobuf := ⟨['a', 'b'], []⟩, running := true, os_pid := 42 }

/-- An oracle whose OS calls all fail (no filesystem, no signals, no
spawns). -/
def emptyOracle : OSOracle :=
  ⟨fun _ => none, fun _ _ => false, fun _ _ => {}, fun _ _ => none⟩

/-- A freshly constructed shell: empty table, `next_pid_ = 1000`. -/
def initialShellState : ShellState := ⟨[], 1000, "/bin/sh", "/", []⟩

/-! ## Lemmas and claim theorems -/

/-! ### Basic list-bitmap lemmas -/

theorem getD_set_ne {l : List Bool} {i j : Nat} (h : i ≠ j) (a d : Bool) :
    (l.set i a).getD j d = l.getD j d := by
  simp [List.getD_eq_getElem?_getD, List.getElem?_set_ne h]

theorem getD_set_self {l : List Bool} {i : Nat} (h : i < l.length) (a d : Bool) :
    (l.set i a).getD i d = a := by
  simp [List.getD_eq_getElem?_getD, List.getElem?_set_self, h]

theorem getD_true_of_getD_false {l : List Bool} {i : Nat}
    (h : l.getD i false = true) : l.getD i true = true := by
  rcases Nat.lt_or_ge i l.length with hi | hi
  · simpa [List.getD_eq_getElem?_getD, List.getElem?_eq_getElem hi] using
      (by simpa [List.getD_eq_getElem?_getD, List.getElem?_eq_getElem hi] using h)
  · simp [List.getD_eq_getElem?_getD, List.getElem?_eq_none hi] at h

theorem lt_length_of_getD_false {l : List Bool} {i : Nat}
    (h : l.getD i true = false) : i < l.length := by
  by_contra hge
  simp [List.getD_eq_getElem?_getD, List.getElem?_eq_none (Nat.le_of_not_lt hge)] at h

theorem getD_false_ne_slot {l : List Bool} {i j : Nat}
    (hi : l.getD i false = true) (hj : l.getD j true = false) : j ≠ i := by
  intro h
  subst h
  have := getD_true_of_getD_false hi
  rw [this] at hj
  exact Bool.noConfusion hj

/-! ### `scanFree` lemmas -/

theorem scanFree_succ (used : List Bool) (start f : Nat) :
    scanFree used start (f + 1) =
      if used.getD start true then scanFree used (start + 1) f else some start := rfl

theorem scanFree_none_of_all_set {used : List Bool}
    (h : ∀ i, used.getD i true = true) :
    ∀ start fuel, scanFree used start fuel = none := by
  intro start fuel
  induction fuel generalizing start with
  | zero => rfl
  | succ f ih => rw [scanFree_succ, if_pos (h start), ih]

theorem scanFree_some_free {used : List Bool} {start fuel j : Nat}
    (h : scanFree used start fuel = some j) :
    used.getD j true = false ∧ start ≤ j ∧ j < start + fuel := by
  induction fuel generalizing start with
  | zero => simp [scanFree] at h
  | succ f ih =>
    rw [scanFree_succ] at h
    by_cases hb : used.getD start true
    · rw [if_pos hb] at h
      obtain ⟨h1, h2, h3⟩ := ih h
      exact ⟨h1, Nat.le_of_succ_le h2, by omega⟩
    · rw [if_neg hb] at h
      cases h
      exact ⟨Bool.eq_false_iff.mpr hb, Nat.le_refl _, by omega⟩

theorem scanFree_isSome_of_free {used : List Bool} {start fuel i : Nat}
    (h1 : start ≤ i) (h2 : i < start + fuel)
    (hfree : used.getD i true = false) :
    (scanFree used start fuel).isSome := by
  induction fuel generalizing start with
  | zero => omega
  | succ f ih =>
    rw [scanFree_succ]
    by_cases hb : used.getD start true
    · have hne : start ≠ i := by
        intro h
        subst h
        rw [hb] at hfree
        exact Bool.noConfusion hfree
      rw [if_pos hb]
      exact ih (by omega) (by omega)
    · rw [if_neg hb]
      rfl

/-! ### `find_free_slot` and `allocate` equations -/

theorem find_free_slot_eq_of_scan1 {p : MemoryPool} {i : Nat}
    (h : scanFree p.used p.next_free (p.used.length - p.next_free) = some i) :
    p.find_free_slot = (some i, { p with next_free := (i + 1) % p.used.length }) := by
  simp [MemoryPool.find_free_slot, h]

theorem find_free_slot_eq_of_scan2 {p : MemoryPool} {i : Nat}
    (h1 : scanFree p.used p.next_free (p.used.length - p.next_free) = none)
    (h2 : scanFree p.used 0 p.next_free = some i) :
    p.find_free_slot = (some i, { p with next_free := (i + 1) % p.used.length }) := by
  simp [MemoryPool.find_free_slot, h1, h2]

theorem find_free_slot_eq_of_none {p : MemoryPool}
    (h1 : scanFree p.used p.next_free (p.used.length - p.next_free) = none)
    (h2 : scanFree p.used 0 p.next_free = none) :
    p.find_free_slot = (none, p) := by
  simp [MemoryPool.find_free_slot, h1, h2]

theorem allocate_eq_of_find_none {p p' : MemoryPool}
    (h : p.find_free_slot = (none, p')) : p.allocate = (none, p') := by
  simp [MemoryPool.allocate, h]

theorem allocate_eq_of_find_some {p p' : MemoryPool} {slot : Nat}
    (h : p.find_free_slot = (some slot, p')) :
    p.allocate = (some (Int.ofNat (slot * p.elem_size)),
      { p' with used := p'.used.set slot true,
                allocated_count := p'.allocated_count + 1 }) := by
  simp [MemoryPool.allocate, h]

theorem find_free_slot_some {p : MemoryPool} {slot : Nat} {p' : MemoryPool}
    (h : p.find_free_slot = (some slot, p')) :
    p.used.getD slot true = false ∧
      p' = { p with next_free := (slot + 1) % p.used.length } := by
  rcases hs1 : scanFree p.used p.next_free (p.used.length - p.next_free) with _ | i
  · rcases hs2 : scanFree p.used 0 p.next_free with _ | i
    · rw [find_free_slot_eq_of_none hs1 hs2] at h
      simp at h
    · rw [find_free_slot_eq_of_scan2 hs1 hs2] at h
      obtain ⟨h1, h2⟩ := Prod.mk.inj h
      cases h1
      exact ⟨(scanFree_some_free hs2).1, h2.symm⟩
  · rw [find_free_slot_eq_of_scan1 hs1] at h
    obtain ⟨h1, h2⟩ := Prod.mk.inj h
    cases h1
    exact ⟨(scanFree_some_free hs1).1, h2.symm⟩

theorem find_free_slot_none {p : MemoryPool} {p' : MemoryPool}
    (h : p.find_free_slot = (none, p')) :
    p' = p ∧ ∀ i, p.used.getD i true = true := by
  rcases hs1 : scanFree p.used p.next_free (p.used.length - p.next_free) with _ | i
  · rcases hs2 : scanFree p.used 0 p.next_free with _ | i
    · rw [find_free_slot_eq_of_none hs1 hs2] at h
      refine ⟨(Prod.mk.inj h).2.symm, ?_⟩
      intro i
      by_contra hfree
      have hfree' : p.used.getD i true = false := Bool.eq_false_iff.mpr hfree
      have hil : i < p.used.length := lt_length_of_getD_false hfree'
      rcases Nat.lt_or_ge i p.next_free with hlt | hge
      · have := @scanFree_isSome_of_free p.used 0 p.next_free i
          (Nat.zero_le i) (by omega) hfree'
        rw [hs2] at this
        exact Bool.noConfusion this
      · have := @scanFree_isSome_of_free p.used p.next_free
          (p.used.length - p.next_free) i hge (by omega) hfree'
        rw [hs1] at this
        exact Bool.noConfusion this
    · rw [find_free_slot_eq_of_scan2 hs1 hs2] at h
      simp at h
  · rw [find_free_slot_eq_of_scan1 hs1] at h
    simp at h

theorem allocate_some_spec {p : MemoryPool} {ptr : Int} {p₁ : MemoryPool}
    (h : p.allocate = (some ptr, p₁)) :
    ∃ slot, p.used.getD slot true = false ∧
      ptr = Int.ofNat (slot * p.elem_size) ∧
      p₁.used = p.used.set slot true ∧
      p₁.elem_size = p.elem_size ∧
      p₁.allocated_count = p.allocated_count + 1 := by
  rcases hfs : p.find_free_slot with ⟨opt, p'⟩
  rcases opt with _ | slot
  · rw [allocate_eq_of_find_none hfs] at h
    simp at h
  · rw [allocate_eq_of_find_some hfs] at h
    obtain ⟨hfree, hp'⟩ := find_free_slot_some hfs
    obtain ⟨h1, h2⟩ := Prod.mk.inj h
    cases h1
    refine ⟨slot, hfree, rfl, ?_, ?_, ?_⟩
    · rw [← h2, hp']
    · rw [← h2, hp']
    · rw [← h2, hp']

theorem allocate_none_iff (p : MemoryPool) :
    (p.allocate).1 = none ↔ ∀ i, p.used.getD i true = true := by
  constructor
  · intro h
    rcases hfs : p.find_free_slot with ⟨opt, p'⟩
    rcases opt with _ | slot
    · exact (find_free_slot_none hfs).2
    · rw [allocate_eq_of_find_some hfs] at h
      simp at h
  · intro h
    have hs1 := scanFree_none_of_all_set h p.next_free (p.used.length - p.next_free)
    have hs2 := scanFree_none_of_all_set h 0 p.next_free
    rw [allocate_eq_of_find_none (find_free_slot_eq_of_none hs1 hs2)]

theorem allocate_snd_of_none {p : MemoryPool}
    (h : (p.allocate).1 = none) : (p.allocate).2 = p := by
  rcases hfs : p.find_free_slot with ⟨opt, p'⟩
  rcases opt with _ | slot
  · rw [allocate_eq_of_find_none hfs]
    exact (find_free_slot_none hfs).1
  · rw [allocate_eq_of_find_some hfs] at h
    simp at h

/-! ### Preservation lemmas for operation traces -/

theorem deallocate_shape (p : MemoryPool) (ptr : Int) :
    p.deallocate ptr = p ∨
    ∃ slot, slot < p.used.length ∧ p.used.getD slot false = true ∧
      slot = ptr.toNat / p.elem_size ∧ ¬ ptr < 0 ∧
      ¬ (p.used.length * p.elem_size : Int) ≤ ptr ∧
      (p.deallocate ptr).used = p.used.set slot false ∧
      (p.deallocate ptr).elem_size = p.elem_size := by
  unfold MemoryPool.deallocate
  by_cases hb : ptr < 0 ∨ (p.used.length * p.elem_size : Int) ≤ ptr
  · left
    rw [if_pos hb]
  · rw [if_neg hb]
    push_neg at hb
    by_cases hslot : ptr.toNat / p.elem_size < p.used.length ∧
        p.used.getD (ptr.toNat / p.elem_size) false
    · right
      refine ⟨ptr.toNat / p.elem_size, hslot.1, hslot.2, rfl,
        Int.not_lt.mpr hb.1, Int.not_le.mpr hb.2, ?_, ?_⟩
      · rw [if_pos hslot]
      · rw [if_pos hslot]
    · left
      rw [if_neg hslot]

theorem poolStep_elem_size (p : MemoryPool) (op : PoolOp) :
    (poolStep p op).elem_size = p.elem_size := by
  cases op with
  | alloc =>
    show (p.allocate).2.elem_size = p.elem_size
    rcases hfs : p.find_free_slot with ⟨opt, p'⟩
    rcases opt with _ | slot
    · rw [allocate_eq_of_find_none hfs, (find_free_slot_none hfs).1]
    · rw [allocate_eq_of_find_some hfs, (find_free_slot_some hfs).2]
  | dealloc ptr =>
    show (p.deallocate ptr).elem_size = p.elem_size
    rcases deallocate_shape p ptr with h | ⟨slot, _, _, _, _, _, _, hes⟩
    · rw [h]
    · exact hes

theorem poolStep_length (p : MemoryPool) (op : PoolOp) :
    (poolStep p op).used.length = p.used.length := by
  cases op with
  | alloc =>
    show (p.allocate).2.used.length = p.used.length
    rcases hfs : p.find_free_slot with ⟨opt, p'⟩
    rcases opt with _ | slot
    · rw [allocate_eq_of_find_none hfs, (find_free_slot_none hfs).1]
    · rw [allocate_eq_of_find_some hfs, (find_free_slot_some hfs).2]
      simp
  | dealloc ptr =>
    show (p.deallocate ptr).used.length = p.used.length
    rcases deallocate_shape p ptr with h | ⟨slot, _, _, _, _, _, hused, _⟩
    · rw [h]
    · rw [hused]
      simp

theorem poolStep_preserves_bit {p : MemoryPool} {i : Nat} {op : PoolOp}
    (hi : p.used.getD i false = true)
    (hop : op.clearsSlot p.elem_size p.used.length i = false) :
    (poolStep p op).used.getD i false = true := by
  cases op with
  | alloc =>
    show (p.allocate).2.used.getD i false = true
    rcases hfs : p.find_free_slot with ⟨opt, p'⟩
    rcases opt with _ | slot
    · rw [allocate_eq_of_find_none hfs, (find_free_slot_none hfs).1]
      exact hi
    · rw [allocate_eq_of_find_some hfs, (find_free_slot_some hfs).2]
      have hfree := (find_free_slot_some hfs).1
      have hne : slot ≠ i := getD_false_ne_slot hi hfree
      show ((p.used.set slot true).getD i false) = true
      rw [getD_set_ne hne]
      exact hi
  | dealloc ptr =>
    show (p.deallocate ptr).used.getD i false = true
    rcases deallocate_shape p ptr with h | ⟨slot, hlt, _, hdiv, hnn, hub, hused, _⟩
    · rw [h]
      exact hi
    · have hne : slot ≠ i := by
        intro h
        subst h
        simp only [PoolOp.clearsSlot, Bool.and_eq_false_iff] at hop
        rcases hop with h | h
        · rcases h with h | h
          · rw [decide_eq_false_iff_not] at h
            exact h (Int.not_lt.mp hnn)
          · rw [decide_eq_false_iff_not] at h
            exact h (Int.not_le.mp hub)
        · rw [beq_eq_false_iff_ne] at h
          exact h hdiv.symm
      rw [hused, getD_set_ne hne]
      exact hi

theorem poolRun_preserves_bit {i : Nat} :
    ∀ (ops : List PoolOp) (p : MemoryPool),
    p.used.getD i false = true →
    (∀ op ∈ ops, op.clearsSlot p.elem_size p.used.length i = false) →
    (poolRun p ops).used.getD i false = true ∧
      (poolRun p ops).elem_size = p.elem_size := by
  intro ops
  induction ops with
  | nil => exact fun p hi _ => ⟨hi, rfl⟩
  | cons op ops ih =>
    intro p hi hops
    have hstep := poolStep_preserves_bit hi (hops op (List.mem_cons_self op ops))
    have hes := poolStep_elem_size p op
    have hlen := poolStep_length p op
    have hrest : ∀ o ∈ ops,
        o.clearsSlot (poolStep p op).elem_size (poolStep p op).used.length i = false := by
      intro o ho
      rw [hes, hlen]
      exact hops o (List.mem_cons_of_mem op ho)
    obtain ⟨h1, h2⟩ := ih (poolStep p op) hstep hrest
    exact ⟨h1, h2.trans hes⟩

theorem allocate_ne_of_bit_set {q : MemoryPool} {i : Nat}
    (hi : q.used.getD i false = true) (hes : 0 < q.elem_size) :
    (q.allocate).1 ≠ some (Int.ofNat (i * q.elem_size)) := by
  rcases hfs : q.find_free_slot with ⟨opt, p'⟩
  rcases opt with _ | slot
  · rw [allocate_eq_of_find_none hfs]
    simp
  · rw [allocate_eq_of_find_some hfs]
    have hfree := (find_free_slot_some hfs).1
    have hne : slot ≠ i := getD_false_ne_slot hi hfree
    intro h
    simp only [Prod.fst, Option.some.injEq, Int.ofNat.injEq] at h
    exact hne (Nat.eq_of_mul_eq_mul_right hes h)

/-! ### Counting helpers -/

theorem count_true_lt_exists_free {l : List Bool} (h : l.count true < l.length) :
    ∃ i, i < l.length ∧ l.getD i true = false := by
  induction l with
  | nil => simp at h
  | cons b t ih =>
    cases b with
    | false => exact ⟨0, by simp, rfl⟩
    | true =>
      have h' : t.count true < t.length := by
        simp [List.count_cons] at h
        omega
      obtain ⟨i, hi, hfree⟩ := ih h'
      exact ⟨i + 1, by simpa using hi, by simpa using hfree⟩

theorem all_set_iff_count_eq {l : List Bool} :
    (∀ i, l.getD i true = true) ↔ l.count true = l.length := by
  induction l with
  | nil => simp [List.getD]
  | cons b t ih =>
    constructor
    · intro h
      have hb : b = true := h 0
      have ht : ∀ i, t.getD i true = true := fun i => h (i + 1)
      subst hb
      simp [List.count_cons, ih.mp ht]
    · intro h i
      cases b with
      | false =>
        exfalso
        have hle := List.count_le_length true t
        simp [List.count_cons] at h
        omega
      | true =>
        have ht : t.count true = t.length := by
          simp [List.count_cons] at h
          omega
        cases i with
        | zero => rfl
        | succ j => simpa using ih.mpr ht j

/-! ## Claims about `MemoryPool` -/

/-- Claim C4 (confirmed): a pointer returned by `MemoryPool::allocate()` is
never returned again by a later `allocate()` as long as no intervening
`deallocate` clears its slot's bitmap bit, over any sequence of
allocate/deallocate operations: no two live allocations share an address. -/
theorem pool_no_reissue_until_freed
    (p : MemoryPool) (ops : List PoolOp) (ptr : Int) (p₁ : MemoryPool)
    (hes : 0 < p.elem_size)
    (halloc : p.allocate = (some ptr, p₁))
    (hops : ∀ op ∈ ops,
      op.clearsSlot p.elem_size p.used.length (ptr.toNat / p.elem_size) = false) :
    ((poolRun p₁ ops).allocate).1 ≠ some ptr := by
  obtain ⟨slot, hfree, hptr, hused, hes1, _⟩ := allocate_some_spec halloc
  have hlt : slot < p.used.length := lt_length_of_getD_false hfree
  have hdiv : ptr.toNat / p.elem_size = slot := by
    rw [hptr]
    show (slot * p.elem_size) / p.elem_size = slot
    exact Nat.mul_div_cancel slot hes
  have hbit1 : p₁.used.getD slot false = true := by
    rw [hused]
    exact getD_set_self hlt true false
  have hlen1 : p₁.used.length = p.used.length := by
    rw [hused]
    simp
  have hops1 : ∀ op ∈ ops,
      op.clearsSlot p₁.elem_size p₁.used.length slot = false := by
    intro op hop
    rw [hes1, hlen1]
    rw [hdiv] at hops
    exact hops op hop
  obtain ⟨hbit, hesq⟩ := poolRun_preserves_bit ops p₁ hbit1 hops1
  have hesq' : 0 < (poolRun p₁ ops).elem_size := by
    rw [hesq, hes1]
    exact hes
  have := allocate_ne_of_bit_set hbit hesq'
  rw [hesq, hes1, ← hptr] at this
  exact this

theorem pool_no_reissue_until_freed_witness :
    ((poolRun ⟨[true, false], 1, 1, 1⟩ [PoolOp.alloc]).allocate).1 ≠
      some (0 : Int) :=
  pool_no_reissue_until_freed ⟨[false, false], 0, 0, 1⟩ [PoolOp.alloc]
    0 ⟨[true, false], 1, 1, 1⟩ (by decide) (by decide) (by decide)

/-- Claim C5 (confirmed): `allocate()` succeeds (returning an unused slot)
whenever at least one slot is free, returns `none` exactly when
`allocated() == N`, and the pool never grows. -/
theorem pool_allocate_none_iff_full (p : MemoryPool)
    (hinv : p.allocated_count = p.used.count true) :
    ((p.allocate).1 = none ↔ p.allocated = p.used.length) ∧
    (p.allocate).2.used.length = p.used.length ∧
    (∀ ptr, (p.allocate).1 = some ptr →
      ∃ slot, slot < p.used.length ∧ p.used.getD slot true = false ∧
        ptr = Int.ofNat (slot * p.elem_size) ∧
        (p.allocate).2.used.getD slot false = true) := by
  refine ⟨?_, poolStep_length p PoolOp.alloc, ?_⟩
  · rw [allocate_none_iff, MemoryPool.allocated, hinv, all_set_iff_count_eq]
  · intro ptr h
    rcases hA : p.allocate with ⟨r, q⟩
    rw [hA] at h
    cases h
    obtain ⟨slot, hfree, hptr, hused, _, _⟩ := allocate_some_spec hA
    have hlt : slot < p.used.length := lt_length_of_getD_false hfree
    refine ⟨slot, hlt, hfree, hptr, ?_⟩
    show q.used.getD slot false = true
    rw [hused]
    exact getD_set_self hlt true false

theorem pool_allocate_none_iff_full_witness :
    (((MemoryPool.allocate ⟨[false], 0, 0, 1⟩).1 = none ↔
      MemoryPool.allocated ⟨[false], 0, 0, 1⟩ =
        (⟨[false], 0, 0, 1⟩ : MemoryPool).used.length) ∧
    (MemoryPool.allocate ⟨[false], 0, 0, 1⟩).2.used.length =
      (⟨[false], 0, 0, 1⟩ : MemoryPool).used.length ∧
    (∀ ptr, (MemoryPool.allocate ⟨[false], 0, 0, 1⟩).1 = some ptr →
      ∃ slot, slot < (⟨[false], 0, 0, 1⟩ : MemoryPool).used.length ∧
        (⟨[false], 0, 0, 1⟩ : MemoryPool).used.getD slot true = false ∧
        ptr = Int.ofNat (slot * (⟨[false], 0, 0, 1⟩ : MemoryPool).elem_size) ∧
        (MemoryPool.allocate ⟨[false], 0, 0, 1⟩).2.used.getD slot false = true)) :=
  pool_allocate_none_iff_full ⟨[false], 0, 0, 1⟩ (by decide)

/-- Claim C6 (counterexample): in a pool with element size 2, after a single
`allocate()` that returned offset 0, the pointer at offset 1 is foreign (it
was never returned by `allocate`, whose results are multiples of the element
size), yet `deallocate(1)` clears slot 0's bit and decrements the count —
not a no-op. -/
theorem pool_deallocate_foreign_cex :
    MemoryPool.allocate ⟨[false, false], 0, 0, 2⟩ =
      (some 0, ⟨[true, false], 1, 1, 2⟩) ∧
    (1 : Int) ≠ (0 : Int) ∧
    (MemoryPool.deallocate ⟨[true, false], 1, 1, 2⟩ 1).used ≠
      (⟨[true, false], 1, 1, 2⟩ : MemoryPool).used ∧
    (MemoryPool.deallocate ⟨[true, false], 1, 1, 2⟩ 1).allocated_count ≠
      (⟨[true, false], 1, 1, 2⟩ : MemoryPool).allocated_count := by decide

/-- Claim C6 (corrected): `deallocate(ptr)` is a no-op — bitmap, count and
hint unchanged — whenever `ptr` lies outside the pool's backing storage or
maps (by the slot-index division) to a currently-free slot.  (A pointer
interior to a *used* slot, though never returned by `allocate`, does
deallocate that slot; see the counterexample.) -/
theorem pool_deallocate_invalid_noop (p : MemoryPool) (ptr : Int)
    (h : ptr < 0 ∨ (p.used.length * p.elem_size : Int) ≤ ptr ∨
         p.used.getD (ptr.toNat / p.elem_size) false = false) :
    p.deallocate ptr = p := by
  unfold MemoryPool.deallocate
  by_cases hb : ptr < 0 ∨ (p.used.length * p.elem_size : Int) ≤ ptr
  · rw [if_pos hb]
  · rw [if_neg hb]
    push_neg at hb
    have hfree : p.used.getD (ptr.toNat / p.elem_size) false = false := by
      rcases h with h | h | h
      · exact absurd h (Int.not_lt.mpr hb.1)
      · exact absurd h (Int.not_le.mpr hb.2)
      · exact h
    rw [if_neg]
    intro hc
    rw [hfree] at hc
    exact Bool.noConfusion hc.2

theorem pool_deallocate_invalid_noop_witness :
    MemoryPool.deallocate ⟨[true], 0, 1, 1⟩ 5 = ⟨[true], 0, 1, 1⟩ :=
  pool_deallocate_invalid_noop ⟨[true], 0, 1, 1⟩ 5 (by decide)

theorem le_align_up16 (x : Nat) : x ≤ align_up16 x := by
  unfold align_up16
  omega

theorem used_le_allocate (s : StackAllocator) (size : Nat) :
    s.used ≤ ((s.allocate size).2).used := by
  unfold StackAllocator.allocate
  by_cases h : s.stack_size < align_up16 s.top + align_up16 size
  · rw [if_pos h]
  · rw [if_neg h]
    show s.top ≤ align_up16 s.top + align_up16 size
    have := le_align_up16 s.top
    omega

/-- Claim C3 (counterexample): a two-operation sequence with no `reset()` —
one `allocate(16)` followed by `deallocate_to` of the returned pointer —
strictly decreases `used()` (from 16 back to 0). -/
theorem stack_used_decreases_cex :
    StackAllocator.allocate ⟨64, 0⟩ 16 = (some 0, ⟨64, 16⟩) ∧
    (StackAllocator.deallocate_to ⟨64, 16⟩ 0).used <
      (⟨64, 16⟩ : StackAllocator).used := by decide

/-- Claim C3 (corrected): `used()` is non-decreasing across any sequence of
`allocate()` calls (the claim fails once `deallocate_to` — a public
operation that rewinds the top to an in-buffer pointer's offset — is
allowed in the sequence), and immediately after any `reset()` call,
`used() == 0`. -/
theorem stack_used_monotone_and_reset (s : StackAllocator) (ops : List StackOp)
    (hops : ∀ op ∈ ops, op.isAlloc = true) :
    s.used ≤ (stackRun s ops).used ∧ ∀ t : StackAllocator, (t.reset).used = 0 := by
  refine ⟨?_, fun t => rfl⟩
  induction ops generalizing s with
  | nil => exact Nat.le_refl _
  | cons op ops ih =>
    have hop := hops op (List.mem_cons_self op ops)
    rcases op with size | ptr | _
    · have h1 : s.used ≤ (stackStep s (StackOp.alloc size)).used :=
        used_le_allocate s size
      have h2 := ih (stackStep s (StackOp.alloc size))
        (fun o ho => hops o (List.mem_cons_of_mem _ ho))
      exact Nat.le_trans h1 h2
    · exact absurd hop (by simp [StackOp.isAlloc])
    · exact absurd hop (by simp [StackOp.isAlloc])

theorem stack_used_monotone_and_reset_witness :
    (⟨64, 0⟩ : StackAllocator).used ≤
      (stackRun ⟨64, 0⟩ [StackOp.alloc 16, StackOp.alloc 8]).used ∧
    ∀ t : StackAllocator, (t.reset).used = 0 :=
  stack_used_monotone_and_reset ⟨64, 0⟩ [StackOp.alloc 16, StackOp.alloc 8]
    (by decide)

theorem getD_replicate_true (n i : Nat) :
    (List.replicate n true).getD i true = true := by
  rcases Nat.lt_or_ge i n with h | h
  · simp [List.getD_eq_getElem?_getD, List.getElem?_replicate, h]
  · have : (List.replicate n true).length ≤ i := by simpa using h
    simp [List.getD_eq_getElem?_getD, List.getElem?_eq_none this]

theorem allocate_eq_none_of_all_set {p : MemoryPool}
    (h : ∀ i, p.used.getD i true = true) : p.allocate = (none, p) :=
  allocate_eq_of_find_none (find_free_slot_eq_of_none
    (scanFree_none_of_all_set h _ _) (scanFree_none_of_all_set h _ _))

/-! ## Claims about `MemoryManager` -/

theorem mm_allocate_small_none {m : MemoryManager} {size : Nat}
    {sysAlloc : Option Nat} {p' : MemoryPool} (h64 : size ≤ 64)
    (hpool : m.small_object_pool.allocate = (none, p')) :
    (m.allocate size sysAlloc).1 = none := by
  unfold MemoryManager.allocate
  rw [if_pos h64, hpool]

/-- Claim C1 (counterexample): with the small-object pool exhausted (all
4096 slots in use), a 1-byte request returns null even though the raw
fallback allocator is available (`sysAlloc = some 7`) — the request does
not degrade to the fallback, it fails outright. -/
theorem mm_pool_exhaustion_cex :
    (∀ i, fullSmallPoolMM.small_object_pool.used.getD i true = true) ∧
    (fullSmallPoolMM.allocate 1 (some 7)).1 = none :=
  ⟨fun i => getD_replicate_true 4096 i,
   mm_allocate_small_none (by decide)
     (allocate_eq_none_of_all_set (fun i => getD_replicate_true 4096 i))⟩

/-- Claim C1 (corrected): a request of size ≤ 4096 whose size-class pool
is exhausted is *not* served by the fallback allocator —
`MemoryManager::allocate` returns null, surfacing the failure to the
caller (only requests larger than 4096 bytes reach
`std::aligned_alloc`). -/
theorem mm_allocate_exhausted_returns_none (m : MemoryManager) (size : Nat)
    (sysAlloc : Option Nat) (hsize : size ≤ 4096)
    (hfull : ∀ i, (sizeClassPool m size).used.getD i true = true) :
    (m.allocate size sysAlloc).1 = none := by
  unfold sizeClassPool at hfull
  unfold MemoryManager.allocate
  by_cases h64 : size ≤ 64
  · rw [if_pos h64] at hfull
    rw [if_pos h64, allocate_eq_none_of_all_set hfull]
  · rw [if_neg h64] at hfull
    rw [if_neg h64]
    by_cases h512 : size ≤ 512
    · rw [if_pos h512] at hfull
      rw [if_pos h512, allocate_eq_none_of_all_set hfull]
    · rw [if_neg h512] at hfull
      rw [if_neg h512, if_pos hsize, allocate_eq_none_of_all_set hfull]

theorem mm_allocate_exhausted_returns_none_witness :
    (fullSmallPoolMM.allocate 1 (some 7)).1 = none :=
  mm_allocate_exhausted_returns_none fullSmallPoolMM 1 (some 7) (by decide)
    (fun i => getD_replicate_true 4096 i)

/-- The non-allocating branch of `update_statistics` only bumps
`total_deallocated`. -/
theorem update_statistics_false_td (m : MemoryManager) (size : Nat) :
    (m.update_statistics size false).total_deallocated =
      (m.total_deallocated + size) % size_t_mod := rfl

/-- Claim C10 (confirmed): for any non-null pointer — pool-owned or not —
`MemoryManager::deallocate(ptr, size)` adds `size` to
`total_deallocated` (mod `2^64`), and whenever `total_deallocated`
exceeds `total_allocated`, `get_stats().current_usage` (the unsigned
difference) wraps around to `2^64 - (total_deallocated -
total_allocated)`. -/
theorem mm_deallocate_unconditional_count (m : MemoryManager) (q : MMPtr)
    (size : Nat) :
    ((m.deallocate (some q) size).total_deallocated =
      (m.total_deallocated + size) % size_t_mod) ∧
    (m.total_allocated < size_t_mod → m.total_deallocated < size_t_mod →
      m.total_allocated < m.total_deallocated →
      (m.get_stats).current_usage =
        size_t_mod - (m.total_deallocated - m.total_allocated)) := by
  constructor
  · simp only [MemoryManager.deallocate]
    split_ifs <;> exact update_statistics_false_td _ _
  · intro hta htd hlt
    show (m.total_allocated + (size_t_mod - m.total_deallocated % size_t_mod)) %
        size_t_mod = size_t_mod - (m.total_deallocated - m.total_allocated)
    unfold size_t_mod at *
    omega

theorem mm_deallocate_unconditional_count_witness :
    ((MemoryManager.deallocate
        ⟨⟨[], 0, 0, 1⟩, ⟨[], 0, 0, 1⟩, ⟨[], 0, 0, 1⟩, ⟨0, 0⟩, 0, 5, 0, []⟩
        (some (MMPtr.sys 0)) 3).total_deallocated = 8 % size_t_mod) ∧
    (MemoryManager.get_stats
        ⟨⟨[], 0, 0, 1⟩, ⟨[], 0, 0, 1⟩, ⟨[], 0, 0, 1⟩, ⟨0, 0⟩, 0, 5, 0, []⟩).current_usage =
      size_t_mod - 5 :=
  ⟨(mm_deallocate_unconditional_count
      ⟨⟨[], 0, 0, 1⟩, ⟨[], 0, 0, 1⟩, ⟨[], 0, 0, 1⟩, ⟨0, 0⟩, 0, 5, 0, []⟩
      (MMPtr.sys 0) 3).1,
   (mm_deallocate_unconditional_count
      ⟨⟨[], 0, 0, 1⟩, ⟨[], 0, 0, 1⟩, ⟨[], 0, 0, 1⟩, ⟨0, 0⟩, 0, 5, 0, []⟩
      (MMPtr.sys 0) 3).2 (by decide) (by decide) (by decide)⟩

/-! ## Claims about the shell -/

/-- Claim C2 (counterexample): on a started process whose stdout buffer
holds "ab", `readOutput(0)` returns "ab" and leaves the process (hence
the buffer) unchanged, so the immediately following `readOutput(0)`
returns the same non-empty bytes again — the buffered output is not
drained. -/
theorem readOutput_not_draining_cex :
    (sampleProc.readOutput 0).1 = ['a', 'b'] ∧
    (sampleProc.readOutput 0).2 = sampleProc ∧
    ((sampleProc.readOutput 0).2.readOutput 0).1 = ['a', 'b'] ∧
    (['a', 'b'] : List Char) ≠ [] := by decide

/-- Claim C2 (corrected): `readOutput(max_bytes)` is a *non-destructive*
read of the buffered output: it returns all buffered bytes when
`max_bytes == 0` and at most `max_bytes` (a prefix) otherwise, and the
buffers are unchanged, so an immediately following call returns the same
bytes again. -/
theorem readOutput_nondestructive (mp : ManagedProcess) (max_bytes : Nat) :
    mp.readOutput max_bytes =
      (if max_bytes = 0 then mp.iobuf.getAllOutput
       else mp.iobuf.getAllOutput.take max_bytes, mp) := by
  unfold ManagedProcess.readOutput
  by_cases h : max_bytes = 0
  · rw [if_pos h, if_pos h]
  · rw [if_neg h, if_neg h]
    by_cases hlen : mp.iobuf.getAllOutput.length ≤ max_bytes
    · rw [if_pos hlen, List.take_of_length_le hlen]
    · rw [if_neg hlen]

/-- Claim C7 (confirmed): a command whose parse is invalid (empty
executable) makes `executeSync` return a Failed `ProcessInfo` (exit code
-1), and makes `executeAsync` and `executeInteractive` return -1. -/
theorem invalid_command_failure_surfaced
    (parse : String → ParsedCommand) (os : OSOracle) (st : ShellState)
    (command : String) (options : ExecutionOptions)
    (hinvalid : (parse command).isValid = false) :
    (ShellImpl.executeSync parse os st command options).1.state =
      ProcessState.Failed ∧
    (ShellImpl.executeSync parse os st command options).1.exit_code = -1 ∧
    (ShellImpl.executeAsync parse os st command options).1 = -1 ∧
    (ShellImpl.executeInteractive parse os st command options).1 = -1 := by
  refine ⟨?_, ?_, ?_, ?_⟩ <;>
    simp [ShellImpl.executeSync, ShellImpl.executeAsync,
      ShellImpl.executeInteractive, hinvalid]

theorem invalid_command_failure_surfaced_witness :
    (ShellImpl.executeSync (fun _ => {}) emptyOracle initialShellState "" {}).1.state =
      ProcessState.Failed ∧
    (ShellImpl.executeSync (fun _ => {}) emptyOracle initialShellState "" {}).1.exit_code = -1 ∧
    (ShellImpl.executeAsync (fun _ => {}) emptyOracle initialShellState "" {}).1 = -1 ∧
    (ShellImpl.executeInteractive (fun _ => {}) emptyOracle initialShellState "" {}).1 = -1 :=
  invalid_command_failure_surfaced (fun _ => {}) emptyOracle initialShellState
    "" {} (by decide)

theorem executeSync_builtin_dispatch
    (parse : String → ParsedCommand) (os : OSOracle) (st : ShellState)
    (command : String) (options : ExecutionOptions)
    (hvalid : (parse command).isValid = true)
    (hbuiltin : isBuiltinCommand (parse command).executable = true) :
    ShellImpl.executeSync parse os st command options =
      ShellImpl.executeBuiltin os st (parse command).executable
        (parse command).arguments options := by
  simp [ShellImpl.executeSync, hvalid, hbuiltin]

theorem executeBuiltinCd_fails {os : OSOracle} {st : ShellState}
    (a : String) (rest : List String) (hfs : os.fs a = none) :
    ShellImpl.executeBuiltinCd os st (a :: rest) =
      ({ command := "cd", arguments := a :: rest,
         state := ProcessState.Failed, exit_code := 1 }, st) := by
  simp [ShellImpl.executeBuiltinCd, ShellImpl.setCurrentDirectory, hfs]

/-- Claim C8 (confirmed; `CommandParser::parse` modelled from the spec):
when the filesystem rejects `/nonexistent-path-xyz`,
`executeSync("cd /nonexistent-path-xyz")` yields state Failed with
exit code 1 and `getCurrentDirectory()` is unchanged. -/
theorem cd_nonexistent_fails (os : OSOracle) (st : ShellState)
    (options : ExecutionOptions)
    (hfs : os.fs "/nonexistent-path-xyz" = none) :
    (ShellImpl.executeSync parseCommandSpec os st
        "cd /nonexistent-path-xyz" options).1.state = ProcessState.Failed ∧
    (ShellImpl.executeSync parseCommandSpec os st
        "cd /nonexistent-path-xyz" options).1.exit_code = 1 ∧
    ShellImpl.getCurrentDirectory
        (ShellImpl.executeSync parseCommandSpec os st
          "cd /nonexistent-path-xyz" options).2 =
      ShellImpl.getCurrentDirectory st := by
  have hd := executeSync_builtin_dispatch parseCommandSpec os st
    "cd /nonexistent-path-xyz" options (by decide) (by decide)
  have hexe : (parseCommandSpec "cd /nonexistent-path-xyz").executable = "cd" := by
    decide
  have hargs : (parseCommandSpec "cd /nonexistent-path-xyz").arguments =
      ["/nonexistent-path-xyz"] := by decide
  rw [hexe, hargs] at hd
  have hcd : ShellImpl.executeBuiltin os st "cd" ["/nonexistent-path-xyz"] options =
      ShellImpl.executeBuiltinCd os st ["/nonexistent-path-xyz"] := by
    simp [ShellImpl.executeBuiltin]
  rw [hd, hcd, executeBuiltinCd_fails "/nonexistent-path-xyz" [] hfs]
  exact ⟨rfl, rfl, rfl⟩

theorem cd_nonexistent_fails_witness :
    (ShellImpl.executeSync parseCommandSpec emptyOracle initialShellState
        "cd /nonexistent-path-xyz" {}).1.state = ProcessState.Failed ∧
    (ShellImpl.executeSync parseCommandSpec emptyOracle initialShellState
        "cd /nonexistent-path-xyz" {}).1.exit_code = 1 ∧
    ShellImpl.getCurrentDirectory
        (ShellImpl.executeSync parseCommandSpec emptyOracle initialShellState
          "cd /nonexistent-path-xyz" {}).2 =
      ShellImpl.getCurrentDirectory initialShellState :=
  cd_nonexistent_fails emptyOracle initialShellState {} (by decide)

/-- Claim C9 (confirmed): for a non-built-in command, `executeSync`
leaves `active_processes_` unchanged — the process it spawns and waits
on is never inserted — so `getProcessInfo` (for every pid) and
`getAllProcesses` observe the same table afterwards as before. -/
theorem executeSync_process_table_frame
    (parse : String → ParsedCommand) (os : OSOracle) (st : ShellState)
    (command : String) (options : ExecutionOptions)
    (hnb : isBuiltinCommand (parse command).executable = false) :
    (ShellImpl.executeSync parse os st command options).2.active_processes =
      st.active_processes ∧
    (∀ pid, ShellImpl.getProcessInfo
        (ShellImpl.executeSync parse os st command options).2 pid =
      ShellImpl.getProcessInfo st pid) ∧
    ShellImpl.getAllProcesses
        (ShellImpl.executeSync parse os st command options).2 =
      ShellImpl.getAllProcesses st := by
  have htab : (ShellImpl.executeSync parse os st command options).2.active_processes =
      st.active_processes := by
    by_cases hv : (parse command).isValid
    · simp [ShellImpl.executeSync, hv, hnb]
    · have hv' : (parse command).isValid = false := Bool.eq_false_iff.mpr hv
      simp [ShellImpl.executeSync, hv']
  refine ⟨htab, fun pid => ?_, ?_⟩
  · unfold ShellImpl.getProcessInfo
    rw [htab]
  · unfold ShellImpl.getAllProcesses
    rw [htab]

theorem executeSync_process_table_frame_witness :
    (ShellImpl.executeSync (fun _ => { executable := "ls" }) emptyOracle
        initialShellState "ls" {}).2.active_processes =
      initialShellState.active_processes ∧
    (∀ pid, ShellImpl.getProcessInfo
        (ShellImpl.executeSync (fun _ => { executable := "ls" }) emptyOracle
          initialShellState "ls" {}).2 pid =
      ShellImpl.getProcessInfo initialShellState pid) ∧
    ShellImpl.getAllProcesses
        (ShellImpl.executeSync (fun _ => { executable := "ls" }) emptyOracle
          initialShellState "ls" {}).2 =
      ShellImpl.getAllProcesses initialShellState :=
  executeSync_process_table_frame (fun _ => { executable := "ls" })
    emptyOracle initialShellState "ls" {} (by decide)
